import Mathlib

/-!
Shallow embedding of the SpyGame coordination layer (the `OnlineGame`
component and the shared utility module) together with proofs about the
vote tally, win evaluation, host migration, join/rejoin, submission
guards and the phase transitions out of `SYNCING_NEXT_ROUND`.

The embedding mirrors the TypeScript source: a `Player` record carries
the identity and round-state fields of the `Player` interface, a
`RoomState` carries the `GameState` fields the verified operations
touch, and each handler becomes a pure function from its inputs (the
snapshot of room state a Firebase transaction sees) to the state it
writes back.  The `players` record (a JS object keyed by player id) is
modelled as a list of `Player` values in key-insertion order; a key
lookup `players[id]` becomes `List.find?` and a per-key update becomes a
`List.map` that rewrites the records whose `id` field matches.
-/

namespace SpyGame

/-- `connectionStatus` of a player: `'connected' | 'disconnected'`. -/
inductive ConnectionStatus where
  | connected
  | disconnected
deriving DecidableEq, Repr

/-- The `Player` interface from `types.ts` (identity + round state). -/
structure Player where
  id : String
  name : String
  avatar : Option String
  isSpy : Bool
  isEliminated : Bool
  isHost : Bool
  connectionStatus : ConnectionStatus
  roleAcknowledged : Bool
  readyForNextRound : Bool
  joinTimestamp : Nat
  firebaseAuthUid : String
deriving DecidableEq, Repr

/-- The `GamePhase` union type. -/
inductive GamePhase where
  | LOBBY
  | SETUP
  | ROLE_REVEAL
  | ANSWERING
  | RESULTS_DISCUSSION
  | VOTE_REVEAL
  | SYNCING_NEXT_ROUND
  | GAME_OVER
deriving DecidableEq, Repr

/-- The winner field values `'PLAYERS' | 'SPIES'`. -/
inductive Winner where
  | PLAYERS
  | SPIES
deriving DecidableEq, Repr

/-- The `QuestionType` union type. -/
inductive QuestionType where
  | YES_NO
  | SCALE_4
  | PLAYERS
deriving DecidableEq, Repr

/-- The `Question` interface (the `type` field is renamed `qtype`
because `type` is a keyword). -/
structure Question where
  id : Nat
  text : String
  qtype : QuestionType
  answers : List String
  familyFriendly : Bool
deriving DecidableEq, Repr

/-- The `Answer` interface: `{playerId, answer}`. -/
structure Answer where
  playerId : String
  answer : String
deriving DecidableEq, Repr

/-- The `Vote` interface: `{voterId, votedForId | null}`. -/
structure Vote where
  voterId : String
  votedForId : Option String
deriving DecidableEq, Repr

/-- The slice of the `GameState` interface that the verified operations
read or write.  `players : Record<string, Player>` is a list in
key-insertion order. -/
structure RoomState where
  roomId : String
  hostId : String
  gamePhase : GamePhase
  round : Nat
  players : List Player
  answers : List Answer
  votes : List Vote
  usedQuestionIds : List Nat
  usedQuestionTexts : List String
  currentQuestion : Option Question
  lastEliminated : Option Player
  winner : Option Winner
  noTimer : Bool
  roundLimit : Bool
  answerTimerEnd : Option Nat
  voteTimerEnd : Option Nat
deriving DecidableEq, Repr

/-! ### Win conditions (`utils.ts`, `checkWinConditions`) -/

/-- `checkWinConditions` from `utils.ts`: among non-eliminated players,
`PLAYERS` win when no spy is left, `SPIES` win when the spies are at
least as many as the innocents, otherwise no winner yet. -/
def checkWinConditions (players : List Player) : Option Winner :=
  let currentActivePlayers := players.filter (fun p => !p.isEliminated)
  let currentActiveSpies := currentActivePlayers.filter (fun p => p.isSpy)
  let currentActiveInnocents := currentActivePlayers.filter (fun p => !p.isSpy)
  if currentActiveSpies.length = 0 then
    some Winner.PLAYERS
  else if currentActiveInnocents.length ≤ currentActiveSpies.length then
    some Winner.SPIES
  else
    none

/-- Number of non-eliminated spies, counted directly over the player
list (the spec's `spies`). -/
def activeSpyCount (players : List Player) : Nat :=
  (players.filter (fun p => !p.isEliminated && p.isSpy)).length

/-- Number of non-eliminated non-spies, counted directly over the player
list (the spec's `innocents`). -/
def activeInnocentCount (players : List Player) : Nat :=
  (players.filter (fun p => !p.isEliminated && !p.isSpy)).length

theorem filter_filter_spies (players : List Player) :
    ((players.filter (fun p => !p.isEliminated)).filter (fun p => p.isSpy)).length
      = activeSpyCount players := by
  unfold activeSpyCount
  rw [List.filter_filter]
  congr 1
  apply List.filter_congr
  intro p _
  exact Bool.and_comm _ _

theorem filter_filter_innocents (players : List Player) :
    ((players.filter (fun p => !p.isEliminated)).filter (fun p => !p.isSpy)).length
      = activeInnocentCount players := by
  unfold activeInnocentCount
  rw [List.filter_filter]
  congr 1
  apply List.filter_congr
  intro p _
  exact Bool.and_comm _ _

/-- C2: `checkWinConditions` returns `PLAYERS` iff there is no
non-eliminated spy; it returns `SPIES` iff there is at least one
non-eliminated spy and the non-eliminated spies are at least as many as
the non-eliminated non-spies; and it returns no winner iff there is at
least one spy and strictly more innocents than spies. -/
theorem checkWinConditions_correct (players : List Player) :
    (checkWinConditions players = some Winner.PLAYERS ↔ activeSpyCount players = 0)
    ∧ (checkWinConditions players = some Winner.SPIES ↔
        activeSpyCount players ≠ 0
          ∧ activeInnocentCount players ≤ activeSpyCount players)
    ∧ (checkWinConditions players = none ↔
        activeSpyCount players ≠ 0
          ∧ activeSpyCount players < activeInnocentCount players) := by
  unfold checkWinConditions
  simp only [filter_filter_spies, filter_filter_innocents]
  rcases Nat.eq_zero_or_pos (activeSpyCount players) with h0 | hpos
  · simp [h0]
  · have hne : activeSpyCount players ≠ 0 := Nat.pos_iff_ne_zero.mp hpos
    by_cases hle : activeInnocentCount players ≤ activeSpyCount players
    · simp [hne, hle]
    · simp [hne, hle]
      omega

/-! ### Vote tally (`OnlineGame`, `handleVoteTally`) -/

/-- Number of votes in `votes` cast for target `t`
(`voteCounts[t]` in `handleVoteTally`). -/
def countVotesFor (votes : List Vote) (t : String) : Nat :=
  (votes.filter (fun v => v.votedForId == some t)).length

/-- The `actualVotes` filter of `handleVoteTally`: keep the votes whose
`votedForId` is non-null and references a player currently present in
the room (`v.votedForId !== null && gameState.players[v.votedForId]`). -/
def actualVotes (players : List Player) (votes : List Vote) : List Vote :=
  votes.filter (fun v =>
    v.votedForId.isSome && players.any (fun p => v.votedForId == some p.id))

/-- One step of building the `voteCounts` key list: a JS object records
each target id once, in first-assignment order. -/
def insertKey (acc : List String) (v : Vote) : List String :=
  match v.votedForId with
  | some t => if t ∈ acc then acc else acc ++ [t]
  | none => acc

/-- The keys of the `voteCounts` object, in insertion order. -/
def voteKeys (votes : List Vote) : List String :=
  votes.foldl insertKey []

/-- `maxVotes` computed by the `for (const playerId in voteCounts)`
loop: the largest count over the keys, starting from `0`. -/
def jsMaxVotes (av : List Vote) : Nat :=
  ((voteKeys av).map (countVotesFor av)).foldl max 0

/-- `playersToEliminate` at the end of the loop: the keys whose count
equals `maxVotes`. -/
def jsLeaders (av : List Vote) : List String :=
  (voteKeys av).filter (fun t => countVotesFor av t == jsMaxVotes av)

/-- `requiredVotes = Math.ceil(currentActivePlayers.length / 2)`. -/
def requiredVotes (players : List Player) : Nat :=
  ((players.filter (fun p => !p.isEliminated)).length + 1) / 2

/-- The fields `handleVoteTally` writes that the tally claims are
about (it additionally sets `voteTimerEnd = null` and
`gamePhase = 'VOTE_REVEAL'`). -/
structure TallyResult where
  players : List Player
  lastEliminated : Option Player
deriving DecidableEq, Repr

/-- `handleVoteTally` from `OnlineGame`: filter the votes, count the
targets, find the unique leader, and eliminate it when it reached the
quorum; otherwise leave the players untouched and record no
elimination. -/
def handleVoteTally (players : List Player) (votes : List Vote) : TallyResult :=
  let av := actualVotes players votes
  match jsLeaders av with
  | [eliminatedId] =>
    if requiredVotes players ≤ jsMaxVotes av then
      if players.any (fun p => p.id == eliminatedId) then
        { players := players.map (fun p =>
            if p.id == eliminatedId then { p with isEliminated := true } else p),
          lastEliminated := players.find? (fun p => p.id == eliminatedId) }
      else { players := players, lastEliminated := none }
    else { players := players, lastEliminated := none }
  | _ => { players := players, lastEliminated := none }

/-- The spec's elimination condition for player id `x`: `x` is the
unique id achieving the highest count of non-null votes, and that count
reaches the quorum `ceil(activePlayerCount / 2)`. -/
def uniqueLeaderAtQuorum (players : List Player) (votes : List Vote) (x : String) : Prop :=
  (∀ y : String, y ≠ x → countVotesFor votes y < countVotesFor votes x)
  ∧ requiredVotes players ≤ countVotesFor votes x

theorem mem_insertKey (acc : List String) (v : Vote) (x : String) :
    x ∈ insertKey acc v ↔ x ∈ acc ∨ v.votedForId = some x := by
  unfold insertKey
  cases hv : v.votedForId with
  | none => simp
  | some t =>
    by_cases ht : t ∈ acc
    · simp only [ht, if_true]
      constructor
      · exact fun h => Or.inl h
      · rintro (h | h)
        · exact h
        · cases h
          exact ht
    · simp [ht, or_comm, eq_comm]

theorem mem_foldl_insertKey (votes : List Vote) (acc : List String) (x : String) :
    x ∈ votes.foldl insertKey acc ↔ x ∈ acc ∨ ∃ v ∈ votes, v.votedForId = some x := by
  induction votes generalizing acc with
  | nil => simp
  | cons v vs ih =>
    rw [List.foldl_cons, ih, mem_insertKey]
    constructor
    · rintro ((h | h) | ⟨w, hw, hwx⟩)
      · exact Or.inl h
      · exact Or.inr ⟨v, List.mem_cons_self .., h⟩
      · exact Or.inr ⟨w, List.mem_cons_of_mem _ hw, hwx⟩
    · rintro (h | ⟨w, hw, hwx⟩)
      · exact Or.inl (Or.inl h)
      · rcases List.mem_cons.mp hw with rfl | hw'
        · exact Or.inl (Or.inr hwx)
        · exact Or.inr ⟨w, hw', hwx⟩

theorem mem_voteKeys (votes : List Vote) (x : String) :
    x ∈ voteKeys votes ↔ ∃ v ∈ votes, v.votedForId = some x := by
  rw [voteKeys, mem_foldl_insertKey]
  simp

theorem nodup_insertKey (acc : List String) (v : Vote) (h : acc.Nodup) :
    (insertKey acc v).Nodup := by
  unfold insertKey
  cases v.votedForId with
  | none => exact h
  | some t =>
    by_cases ht : t ∈ acc
    · simpa [ht]
    · simp [ht, List.nodup_append, h]

theorem nodup_foldl_insertKey (votes : List Vote) (acc : List String)
    (h : acc.Nodup) : (votes.foldl insertKey acc).Nodup := by
  induction votes generalizing acc with
  | nil => exact h
  | cons v vs ih => exact ih _ (nodup_insertKey acc v h)

theorem nodup_voteKeys (votes : List Vote) : (voteKeys votes).Nodup :=
  nodup_foldl_insertKey votes [] List.nodup_nil

theorem countVotesFor_pos_iff (votes : List Vote) (x : String) :
    0 < countVotesFor votes x ↔ ∃ v ∈ votes, v.votedForId = some x := by
  unfold countVotesFor
  rw [List.length_pos]
  constructor
  · intro h
    rcases List.exists_mem_of_ne_nil _ h with ⟨v, hv⟩
    have := List.mem_filter.mp hv
    exact ⟨v, this.1, by simpa using this.2⟩
  · rintro ⟨v, hv, hvx⟩
    intro hnil
    have : v ∈ votes.filter (fun v => v.votedForId == some x) :=
      List.mem_filter.mpr ⟨hv, by simp [hvx]⟩
    rw [hnil] at this
    exact List.not_mem_nil v this

theorem countVotesFor_eq_zero_of_not_mem_voteKeys (votes : List Vote) (x : String)
    (h : x ∉ voteKeys votes) : countVotesFor votes x = 0 := by
  by_contra hne
  exact h ((mem_voteKeys votes x).mpr
    ((countVotesFor_pos_iff votes x).mp (Nat.pos_of_ne_zero hne)))

theorem le_foldl_max (l : List Nat) (a : Nat) : a ≤ l.foldl max a := by
  induction l generalizing a with
  | nil => exact Nat.le_refl a
  | cons x xs ih => exact Nat.le_trans (Nat.le_max_left a x) (ih (max a x))

theorem foldl_max_le_of_mem (l : List Nat) : ∀ a x : Nat, x ∈ l →
    x ≤ l.foldl max a := by
  induction l with
  | nil => intro a x hx; cases hx
  | cons y ys ih =>
    intro a x hx
    rcases List.mem_cons.mp hx with rfl | h
    · exact Nat.le_trans (Nat.le_max_right a x) (le_foldl_max ys (max a x))
    · exact ih (max a y) x h

theorem foldl_max_eq_or_mem (l : List Nat) (a : Nat) :
    l.foldl max a = a ∨ l.foldl max a ∈ l := by
  induction l generalizing a with
  | nil => exact Or.inl rfl
  | cons x xs ih =>
    rw [List.foldl_cons]
    rcases ih (max a x) with h | h
    · rcases max_choice a x with hm | hm
      · exact Or.inl (by rw [h, hm])
      · exact Or.inr (by rw [h, hm]; exact List.mem_cons_self ..)
    · exact Or.inr (List.mem_cons_of_mem _ h)

theorem cnt_le_jsMaxVotes (av : List Vote) (t : String) (ht : t ∈ voteKeys av) :
    countVotesFor av t ≤ jsMaxVotes av :=
  foldl_max_le_of_mem _ 0 _ (List.mem_map_of_mem _ ht)

theorem jsMaxVotes_achieved (av : List Vote) (x : String) (hx : x ∈ voteKeys av) :
    ∃ t ∈ voteKeys av, countVotesFor av t = jsMaxVotes av := by
  rcases foldl_max_eq_or_mem ((voteKeys av).map (countVotesFor av)) 0 with h | h
  · exfalso
    have h1 : 0 < countVotesFor av x :=
      (countVotesFor_pos_iff av x).mpr ((mem_voteKeys av x).mp hx)
    have h2 := cnt_le_jsMaxVotes av x hx
    have h0 : jsMaxVotes av = 0 := h
    omega
  · rcases List.mem_map.mp h with ⟨t, htk, hteq⟩
    exact ⟨t, htk, hteq⟩

theorem mem_jsLeaders (av : List Vote) (y : String) :
    y ∈ jsLeaders av ↔ y ∈ voteKeys av ∧ countVotesFor av y = jsMaxVotes av := by
  unfold jsLeaders
  rw [List.mem_filter]
  simp

theorem eq_singleton_of_nodup_all_eq (l : List String) (x : String)
    (hnd : l.Nodup) (hmem : x ∈ l) (hall : ∀ y ∈ l, y = x) : l = [x] := by
  cases l with
  | nil => cases hmem
  | cons a t =>
    have ha : a = x := hall a (List.mem_cons_self ..)
    subst ha
    cases t with
    | nil => rfl
    | cons b t' =>
      exfalso
      rw [List.nodup_cons] at hnd
      apply hnd.1
      have hb : b = a := hall b (by simp)
      rw [← hb]
      exact List.mem_cons_self ..

theorem jsLeaders_eq_singleton_iff (av : List Vote) (x : String) :
    jsLeaders av = [x] ↔
      0 < countVotesFor av x
        ∧ ∀ y, y ≠ x → countVotesFor av y < countVotesFor av x := by
  constructor
  · intro h
    have hx := (mem_jsLeaders av x).mp (by rw [h]; exact List.mem_cons_self ..)
    have hxpos : 0 < countVotesFor av x :=
      (countVotesFor_pos_iff av x).mpr ((mem_voteKeys av x).mp hx.1)
    refine ⟨hxpos, fun y hy => ?_⟩
    by_cases hyk : y ∈ voteKeys av
    · have hne : countVotesFor av y ≠ jsMaxVotes av := by
        intro heq
        have hmem : y ∈ jsLeaders av := (mem_jsLeaders av y).mpr ⟨hyk, heq⟩
        rw [h] at hmem
        exact hy (by simpa using hmem)
      have hle := cnt_le_jsMaxVotes av y hyk
      have hx2 := hx.2
      omega
    · have hz := countVotesFor_eq_zero_of_not_mem_voteKeys av y hyk
      omega
  · rintro ⟨hpos, hlt⟩
    have hxk : x ∈ voteKeys av :=
      (mem_voteKeys av x).mpr ((countVotesFor_pos_iff av x).mp hpos)
    have hmax : jsMaxVotes av = countVotesFor av x := by
      rcases jsMaxVotes_achieved av x hxk with ⟨t, htk, hteq⟩
      by_cases htx : t = x
      · rw [htx] at hteq
        omega
      · have h1 := hlt t htx
        have h2 := cnt_le_jsMaxVotes av x hxk
        omega
    apply eq_singleton_of_nodup_all_eq
    · exact List.Nodup.filter _ (nodup_voteKeys av)
    · exact (mem_jsLeaders av x).mpr ⟨hxk, hmax.symm⟩
    · intro y hy
      have hmem := (mem_jsLeaders av y).mp hy
      by_contra hyx
      have := hlt y hyx
      omega

theorem jsMaxVotes_eq_of_leader (av : List Vote) (x : String)
    (h : jsLeaders av = [x]) : jsMaxVotes av = countVotesFor av x :=
  ((mem_jsLeaders av x).mp (by rw [h]; exact List.mem_cons_self ..)).2.symm

/-- When every non-null vote target is still present, the `actualVotes`
filter keeps exactly the non-null votes. -/
theorem actualVotes_eq_of_targets_present (players : List Player) (votes : List Vote)
    (hpresent : ∀ v ∈ votes, ∀ t, v.votedForId = some t → ∃ p ∈ players, p.id = t) :
    actualVotes players votes = votes.filter (fun v => v.votedForId.isSome) := by
  unfold actualVotes
  apply List.filter_congr
  intro v hv
  cases hvt : v.votedForId with
  | none => simp
  | some t =>
    rcases hpresent v hv t hvt with ⟨p, hp, hpt⟩
    simp only [hvt, Option.isSome_some, Bool.true_and]
    rw [List.any_eq_true]
    exact ⟨p, hp, by simp [hpt]⟩

theorem countVotesFor_filter_isSome (votes : List Vote) (x : String) :
    countVotesFor (votes.filter (fun v => v.votedForId.isSome)) x
      = countVotesFor votes x := by
  unfold countVotesFor
  rw [List.filter_filter]
  congr 1
  apply List.filter_congr
  intro v _
  cases hvt : v.votedForId <;> simp [hvt]

theorem countVotesFor_actualVotes (players : List Player) (votes : List Vote)
    (hpresent : ∀ v ∈ votes, ∀ t, v.votedForId = some t → ∃ p ∈ players, p.id = t)
    (y : String) :
    countVotesFor (actualVotes players votes) y = countVotesFor votes y := by
  rw [actualVotes_eq_of_targets_present players votes hpresent,
    countVotesFor_filter_isSome]

theorem exists_string_ne (x : String) : ∃ y : String, y ≠ x := by
  by_cases hx : x = ""
  · refine ⟨"a", ?_⟩
    rw [hx]
    intro h
    exact absurd h (by decide)
  · exact ⟨"", fun h => hx h.symm⟩

/-- The spec's elimination condition holds exactly when the JS loop
produces a single leader that reached the quorum. -/
theorem uniqueLeader_iff_jsLeaders (players : List Player) (votes : List Vote)
    (hpresent : ∀ v ∈ votes, ∀ t, v.votedForId = some t → ∃ p ∈ players, p.id = t)
    (x : String) :
    uniqueLeaderAtQuorum players votes x ↔
      (jsLeaders (actualVotes players votes) = [x]
        ∧ requiredVotes players ≤ jsMaxVotes (actualVotes players votes)) := by
  have hcnt := countVotesFor_actualVotes players votes hpresent
  rw [jsLeaders_eq_singleton_iff]
  unfold uniqueLeaderAtQuorum
  constructor
  · rintro ⟨hlt, hq⟩
    have hpos : 0 < countVotesFor votes x := by
      rcases exists_string_ne x with ⟨y, hy⟩
      have := hlt y hy
      omega
    refine ⟨⟨by rw [hcnt x]; exact hpos, fun y hy => ?_⟩, ?_⟩
    · rw [hcnt y, hcnt x]
      exact hlt y hy
    · rw [jsMaxVotes_eq_of_leader _ x ?_, hcnt x]
      · exact hq
      · rw [jsLeaders_eq_singleton_iff]
        refine ⟨by rw [hcnt x]; exact hpos, fun y hy => ?_⟩
        rw [hcnt y, hcnt x]
        exact hlt y hy
  · rintro ⟨⟨hpos, hlt⟩, hq⟩
    refine ⟨fun y hy => ?_, ?_⟩
    · rw [← hcnt y, ← hcnt x]
      exact hlt y hy
    · rw [← hcnt x]
      have hL : jsLeaders (actualVotes players votes) = [x] := by
        rw [jsLeaders_eq_singleton_iff]
        exact ⟨hpos, hlt⟩
      rw [← jsMaxVotes_eq_of_leader _ x hL]
      exact hq

theorem any_id_of_mem_voteKeys_actual (players : List Player) (votes : List Vote)
    (x : String) (hx : x ∈ voteKeys (actualVotes players votes)) :
    players.any (fun p => p.id == x) = true := by
  rcases (mem_voteKeys _ x).mp hx with ⟨v, hv, hvx⟩
  have hcond := (List.mem_filter.mp hv).2
  rw [Bool.and_eq_true, List.any_eq_true] at hcond
  rcases hcond.2 with ⟨p, hp, hpx⟩
  rw [hvx] at hpx
  rw [List.any_eq_true]
  refine ⟨p, hp, ?_⟩
  simp only [beq_iff_eq] at hpx ⊢
  simp only [Option.some.injEq] at hpx
  exact hpx.symm

/-- C1: the host's vote tally eliminates a player if and only if exactly
one player id achieves the highest count of non-null votes and that
count is at least `ceil(activePlayerCount / 2)`; in that case that
player is recorded as `lastEliminated` (its pre-tally record) and its
`isEliminated` flag is set to `true`; otherwise no player record changes
and `lastEliminated` is `null`.  The hypothesis states that each
non-null vote target references a player present in the room, so that
the code's presence filter keeps exactly the non-null votes. -/
theorem handleVoteTally_correct (players : List Player) (votes : List Vote)
    (hpresent : ∀ v ∈ votes, ∀ t, v.votedForId = some t → ∃ p ∈ players, p.id = t) :
    ((handleVoteTally players votes).lastEliminated = none →
        (handleVoteTally players votes).players = players)
    ∧ ((handleVoteTally players votes).lastEliminated.isSome = true
        ↔ ∃ x, uniqueLeaderAtQuorum players votes x)
    ∧ (∀ x, uniqueLeaderAtQuorum players votes x →
        (handleVoteTally players votes).lastEliminated
            = players.find? (fun p => p.id == x)
        ∧ (handleVoteTally players votes).players
            = players.map (fun p =>
                if p.id == x then { p with isEliminated := true } else p)) := by
  have hbridge := uniqueLeader_iff_jsLeaders players votes hpresent
  cases hL : jsLeaders (actualVotes players votes) with
  | nil =>
    have hne : ¬∃ x, uniqueLeaderAtQuorum players votes x := by
      rintro ⟨x, hx⟩
      have h1 := ((hbridge x).mp hx).1
      rw [hL] at h1
      exact absurd h1 (by simp)
    have hresP : (handleVoteTally players votes).players = players := by
      simp [handleVoteTally, hL]
    have hresE : (handleVoteTally players votes).lastEliminated = none := by
      simp [handleVoteTally, hL]
    refine ⟨fun _ => hresP, ?_, ?_⟩
    · rw [hresE]
      simp only [Option.isSome_none, Bool.false_eq_true, false_iff]
      exact hne
    · intro x hx
      exact absurd ⟨x, hx⟩ hne
  | cons eid rest =>
    cases rest with
    | cons b t =>
      have hne : ¬∃ x, uniqueLeaderAtQuorum players votes x := by
        rintro ⟨x, hx⟩
        have h1 := ((hbridge x).mp hx).1
        rw [hL] at h1
        simp at h1
      have hresP : (handleVoteTally players votes).players = players := by
        simp [handleVoteTally, hL]
      have hresE : (handleVoteTally players votes).lastEliminated = none := by
        simp [handleVoteTally, hL]
      refine ⟨fun _ => hresP, ?_, ?_⟩
      · rw [hresE]
        simp only [Option.isSome_none, Bool.false_eq_true, false_iff]
        exact hne
      · intro x hx
        exact absurd ⟨x, hx⟩ hne
    | nil =>
      by_cases hreq : requiredVotes players ≤ jsMaxVotes (actualVotes players votes)
      · have hany : players.any (fun p => p.id == eid) = true := by
          apply any_id_of_mem_voteKeys_actual players votes eid
          have hmem : eid ∈ jsLeaders (actualVotes players votes) := by
            rw [hL]
            exact List.mem_cons_self ..
          exact ((mem_jsLeaders _ eid).mp hmem).1
        have hfindSome : (players.find? (fun p => p.id == eid)).isSome = true := by
          rw [List.any_eq_true] at hany
          rcases hany with ⟨p, hp, hpe⟩
          cases hf : players.find? (fun p => p.id == eid) with
          | some q => rfl
          | none =>
            rw [List.find?_eq_none] at hf
            exact absurd hpe (hf p hp)
        have hany2 : players.any (fun p => p.id == eid) = true := by
          apply any_id_of_mem_voteKeys_actual players votes eid
          have hmem : eid ∈ jsLeaders (actualVotes players votes) := by
            rw [hL]
            exact List.mem_cons_self ..
          exact ((mem_jsLeaders _ eid).mp hmem).1
        have hresP : (handleVoteTally players votes).players
            = players.map (fun p =>
                if p.id == eid then { p with isEliminated := true } else p) := by
          simp [handleVoteTally, hL, hreq, hany2]
        have hresE : (handleVoteTally players votes).lastEliminated
            = players.find? (fun p => p.id == eid) := by
          simp [handleVoteTally, hL, hreq, hany2]
        have huniq : uniqueLeaderAtQuorum players votes eid :=
          (hbridge eid).mpr ⟨hL, hreq⟩
        refine ⟨?_, ?_, ?_⟩
        · intro hnone
          rw [hresE] at hnone
          rw [hnone] at hfindSome
          simp at hfindSome
        · rw [hresE]
          constructor
          · intro _
            exact ⟨eid, huniq⟩
          · intro _
            exact hfindSome
        · intro x hx
          have hLx := ((hbridge x).mp hx).1
          rw [hL] at hLx
          have hex : eid = x := by simpa using hLx
          subst hex
          exact ⟨hresE, hresP⟩
      · have hne : ¬∃ x, uniqueLeaderAtQuorum players votes x := by
          rintro ⟨x, hx⟩
          exact hreq ((hbridge x).mp hx).2
        have hresP : (handleVoteTally players votes).players = players := by
          simp [handleVoteTally, hL, hreq]
        have hresE : (handleVoteTally players votes).lastEliminated = none := by
          simp [handleVoteTally, hL, hreq]
        refine ⟨fun _ => hresP, ?_, ?_⟩
        · rw [hresE]
          simp only [Option.isSome_none, Bool.false_eq_true, false_iff]
          exact hne
        · intro x hx
          exact absurd ⟨x, hx⟩ hne

/-- A connected, non-eliminated, non-spy, non-host player used in the
concrete instances below. -/
def basicPlayer (id : String) (ts : Nat) : Player :=
  { id := id, name := id, avatar := none, isSpy := false, isEliminated := false,
    isHost := false, connectionStatus := ConnectionStatus.connected,
    roleAcknowledged := false, readyForNextRound := false,
    joinTimestamp := ts, firebaseAuthUid := "uid-" ++ id }

def playersC1 : List Player :=
  [basicPlayer "A" 0, basicPlayer "B" 1, basicPlayer "C" 2,
   basicPlayer "D" 3, basicPlayer "E" 4, basicPlayer "F" 5]

def votesC1 : List Vote :=
  [{ voterId := "B", votedForId := some "A" },
   { voterId := "C", votedForId := some "A" },
   { voterId := "D", votedForId := some "A" },
   { voterId := "E", votedForId := some "A" }]

theorem hpresentC1 : ∀ v ∈ votesC1, ∀ t, v.votedForId = some t →
    ∃ p ∈ playersC1, p.id = t := by
  intro v hv t ht
  have hA : t = "A" := by
    fin_cases hv <;> simpa using ht.symm
  subst hA
  decide

theorem uniqueLeaderC1 : uniqueLeaderAtQuorum playersC1 votesC1 "A" := by
  refine ⟨fun y hy => ?_, by decide⟩
  have h0 : countVotesFor votesC1 y = 0 := by
    have hnil : List.filter (fun v => v.votedForId == some y) votesC1 = [] := by
      rw [List.filter_eq_nil_iff]
      intro v hv
      have hall : v.votedForId = some "A" := by fin_cases hv <;> rfl
      rw [hall]
      simp
      exact fun h => hy h.symm
    unfold countVotesFor
    rw [hnil]
    rfl
  rw [h0]
  decide

/-- Witness for C1: six active players (quorum 3), four votes for `"A"`
→ `"A"` is recorded as eliminated and its flag is set. -/
theorem handleVoteTally_correct_witness :
    (handleVoteTally playersC1 votesC1).lastEliminated
        = playersC1.find? (fun p => p.id == "A")
      ∧ (handleVoteTally playersC1 votesC1).players
        = playersC1.map (fun p =>
            if p.id == "A" then { p with isEliminated := true } else p) :=
  (handleVoteTally_correct playersC1 votesC1 hpresentC1).2.2 "A" uniqueLeaderC1

/-! ### C4: the tally's vote filter -/

def playersC4 : List Player := [basicPlayer "A" 0, basicPlayer "B" 1]

def votesC4 : List Vote := [{ voterId := "ghost", votedForId := some "A" }]

/-- C4 counterexample: the code never checks `voterId`.  With two active
players (quorum 1) and a single vote cast by the removed player
`"ghost"` for the present player `"A"`, the claim says the vote
contributes nothing (so nobody is eliminated), but the filter keeps the
vote and the tally eliminates `"A"`. -/
theorem actualVotes_voterNotChecked_counterexample :
    (playersC4.all (fun p => p.id != "ghost")) = true
      ∧ actualVotes playersC4 votesC4 = votesC4
      ∧ (handleVoteTally playersC4 votesC4).lastEliminated
          = some (basicPlayer "A" 0)
      ∧ ∃ p ∈ (handleVoteTally playersC4 votesC4).players,
          p.id = "A" ∧ p.isEliminated = true := by
  decide

/-- C4 amended: before counting, the tally filters the votes to those
whose `votedForId` is non-null and still references a currently-present
player; the `voterId` is not checked, so a vote whose voter has been
removed still counts as long as its target is present. -/
theorem actualVotes_amended (players : List Player) (votes : List Vote) :
    actualVotes players votes = votes.filter (fun v =>
      match v.votedForId with
      | some t => players.any (fun p => p.id == t)
      | none => false) := by
  unfold actualVotes
  apply List.filter_congr
  intro v _
  cases hvt : v.votedForId with
  | none => simp [hvt]
  | some t =>
    simp only [hvt, Option.isSome_some, Bool.true_and]
    rw [Bool.eq_iff_iff]
    simp only [List.any_eq_true, beq_iff_eq, Option.some.injEq]
    constructor
    · rintro ⟨p, hp, hpe⟩
      exact ⟨p, hp, hpe.symm⟩
    · rintro ⟨p, hp, hpe⟩
      exact ⟨p, hp, hpe.symm⟩

/-! ### Host migration (`OnlineGame`, host-migration transaction) -/

/-- One comparison step of
`sort((a,b) => (a.joinTimestamp||0) - (b.joinTimestamp||0))[0]`: keep
the earliest-joined of the two (strict `<`, so the earlier list element
wins ties, as JS stable sort does). -/
def minJoinStep (best q : Player) : Player :=
  if q.joinTimestamp < best.joinTimestamp then q else best

/-- `remainingPlayers.sort(byJoinTimestamp)[0]`: the first element with
the minimal `joinTimestamp`, or `none` on the empty list. -/
def firstByJoinTimestamp : List Player → Option Player
  | [] => none
  | p :: ps => some (ps.foldl minJoinStep p)

/-- `remainingPlayers` in the host-migration transaction: connected
players other than the current (disconnected) host. -/
def migrationCandidates (room : RoomState) : List Player :=
  room.players.filter (fun p =>
    p.id != room.hostId && (p.connectionStatus == ConnectionStatus.connected))

/-- The host-migration transaction body from `OnlineGame`: abort (no-op)
unless the re-read room still shows the host disconnected; otherwise
promote the earliest-joined connected candidate, flipping the `isHost`
flags of the new and the old host. -/
def hostMigrationTransaction (room : RoomState) : RoomState :=
  match room.players.find? (fun p => p.id == room.hostId) with
  | none => room
  | some disconnectedHost =>
    if disconnectedHost.connectionStatus != ConnectionStatus.disconnected then
      room
    else
      match firstByJoinTimestamp (migrationCandidates room) with
      | none => room
      | some nextHost =>
        { room with
          hostId := nextHost.id,
          players := room.players.map (fun p =>
            if p.id == nextHost.id then { p with isHost := true }
            else if p.id == disconnectedHost.id then { p with isHost := false }
            else p) }

theorem foldl_minJoin_le (ps : List Player) : ∀ p : Player,
    (ps.foldl minJoinStep p).joinTimestamp ≤ p.joinTimestamp
      ∧ ∀ q ∈ ps, (ps.foldl minJoinStep p).joinTimestamp ≤ q.joinTimestamp := by
  induction ps with
  | nil =>
    intro p
    exact ⟨Nat.le_refl _, fun q hq => absurd hq (List.not_mem_nil q)⟩
  | cons a t ih =>
    intro p
    rw [List.foldl_cons]
    obtain ⟨h1, h2⟩ := ih (minJoinStep p a)
    have hb1 : (minJoinStep p a).joinTimestamp ≤ p.joinTimestamp := by
      unfold minJoinStep
      split <;> omega
    have hb2 : (minJoinStep p a).joinTimestamp ≤ a.joinTimestamp := by
      unfold minJoinStep
      split <;> omega
    refine ⟨Nat.le_trans h1 hb1, fun q hq => ?_⟩
    rcases List.mem_cons.mp hq with rfl | hq'
    · exact Nat.le_trans h1 hb2
    · exact h2 q hq'

theorem foldl_minJoin_mem (ps : List Player) : ∀ p : Player,
    ps.foldl minJoinStep p = p ∨ ps.foldl minJoinStep p ∈ ps := by
  induction ps with
  | nil => exact fun p => Or.inl rfl
  | cons a t ih =>
    intro p
    rw [List.foldl_cons]
    rcases ih (minJoinStep p a) with h | h
    · rw [h]
      unfold minJoinStep
      split
      · exact Or.inr (List.mem_cons_self ..)
      · exact Or.inl rfl
    · exact Or.inr (List.mem_cons_of_mem _ h)

theorem firstByJoinTimestamp_spec (l : List Player) (hne : l ≠ []) :
    ∃ m, firstByJoinTimestamp l = some m ∧ m ∈ l
      ∧ ∀ q ∈ l, m.joinTimestamp ≤ q.joinTimestamp := by
  cases l with
  | nil => exact absurd rfl hne
  | cons p ps =>
    refine ⟨ps.foldl minJoinStep p, rfl, ?_, ?_⟩
    · rcases foldl_minJoin_mem ps p with h | h
      · rw [h]
        exact List.mem_cons_self ..
      · exact List.mem_cons_of_mem _ h
    · intro q hq
      obtain ⟨h1, h2⟩ := foldl_minJoin_le ps p
      rcases List.mem_cons.mp hq with rfl | hq'
      · exact h1
      · exact h2 q hq'

/-- C3: when the transaction re-reads the room and the host is still
disconnected and a connected candidate exists, the candidate with the
smallest `joinTimestamp` (the earliest joiner among currently connected
players, excluding the host) becomes `hostId`, its record gets
`isHost = true`, and the old host's record gets `isHost = false`; if the
host is observed as connected the transaction is a no-op. -/
theorem hostMigration_correct (room : RoomState) (h : Player)
    (hfind : room.players.find? (fun p => p.id == room.hostId) = some h) :
    (h.connectionStatus = ConnectionStatus.connected →
        hostMigrationTransaction room = room)
    ∧ (h.connectionStatus = ConnectionStatus.disconnected →
        migrationCandidates room ≠ [] →
        ∃ nh, nh ∈ migrationCandidates room
          ∧ (∀ q ∈ migrationCandidates room, nh.joinTimestamp ≤ q.joinTimestamp)
          ∧ (hostMigrationTransaction room).hostId = nh.id
          ∧ { nh with isHost := true } ∈ (hostMigrationTransaction room).players
          ∧ { h with isHost := false } ∈ (hostMigrationTransaction room).players) := by
  have hmem : h ∈ room.players := List.mem_of_find?_eq_some hfind
  have hid : h.id = room.hostId := by simpa using List.find?_some hfind
  constructor
  · intro hconn
    unfold hostMigrationTransaction
    rw [hfind]
    simp [hconn]
  · intro hdisc hne
    obtain ⟨nh, hfb, hnmem, hmin⟩ := firstByJoinTimestamp_spec _ hne
    have hres : hostMigrationTransaction room =
        { room with
          hostId := nh.id,
          players := room.players.map (fun p =>
            if p.id == nh.id then { p with isHost := true }
            else if p.id == h.id then { p with isHost := false }
            else p) } := by
      unfold hostMigrationTransaction
      rw [hfind, hfb]
      simp [hdisc]
    have hcand := (List.mem_filter.mp hnmem).2
    simp only [Bool.and_eq_true, bne_iff_ne, ne_eq, beq_iff_eq] at hcand
    have hneq : (h.id == nh.id) = false := by
      simp only [beq_eq_false_iff_ne, ne_eq]
      intro heq
      exact hcand.1 (by rw [← heq]; exact hid)
    refine ⟨nh, hnmem, hmin, ?_, ?_, ?_⟩
    · rw [hres]
    · rw [hres]
      refine List.mem_map.mpr ⟨nh, (List.mem_filter.mp hnmem).1, ?_⟩
      simp
    · rw [hres]
      refine List.mem_map.mpr ⟨h, hmem, ?_⟩
      simp [hneq]

/-- The disconnected host of the concrete migration instance
(`joinOrder 0`). -/
def playerHC3 : Player :=
  { basicPlayer "H" 0 with
    isHost := true, connectionStatus := ConnectionStatus.disconnected }

/-- Concrete room for the migration witness: host `"H"` disconnected,
`"B"` (joined second) and `"C"` (joined third) connected. -/
def roomC3 : RoomState :=
  { roomId := "ROOM", hostId := "H", gamePhase := GamePhase.ANSWERING,
    round := 1,
    players := [playerHC3, basicPlayer "B" 1, basicPlayer "C" 2],
    answers := [], votes := [], usedQuestionIds := [], usedQuestionTexts := [],
    currentQuestion := none, lastEliminated := none, winner := none,
    noTimer := false, roundLimit := true,
    answerTimerEnd := none, voteTimerEnd := none }

/-- Witness for C3: on `roomC3` the migration promotes `"B"` (the
earliest-joined connected candidate). -/
theorem hostMigration_correct_witness :
    (∃ nh, nh ∈ migrationCandidates roomC3
      ∧ (∀ q ∈ migrationCandidates roomC3, nh.joinTimestamp ≤ q.joinTimestamp)
      ∧ (hostMigrationTransaction roomC3).hostId = nh.id
      ∧ { nh with isHost := true } ∈ (hostMigrationTransaction roomC3).players
      ∧ { playerHC3 with isHost := false } ∈ (hostMigrationTransaction roomC3).players)
    ∧ (hostMigrationTransaction roomC3).hostId = "B" :=
  ⟨(hostMigration_correct roomC3 playerHC3 (by decide)).2 (by decide) (by decide),
    by decide⟩

/-! ### Vote reveal end (`OnlineGame`, `handleVoteRevealFinished`) -/

/-- `handleVoteRevealFinished`: evaluate the win conditions; end the
game when there is a winner or when the round limit is reached
(`roundLimit && round >= totalPlayerCount - 1`, with `SPIES` as the
default winner); otherwise clear the `readyForNextRound` flags and move
to `SYNCING_NEXT_ROUND`. -/
def handleVoteRevealFinished (room : RoomState) : RoomState :=
  let winner := checkWinConditions room.players
  let initialPlayerCount := room.players.length
  if winner.isSome || (room.roundLimit && decide (initialPlayerCount - 1 ≤ room.round)) then
    { room with
      winner := some (winner.getD Winner.SPIES),
      gamePhase := GamePhase.GAME_OVER }
  else
    { room with
      players := room.players.map (fun p => { p with readyForNextRound := false }),
      gamePhase := GamePhase.SYNCING_NEXT_ROUND }

/-- C5: with no winner from `checkWinConditions`, `roundLimit` enabled
and `round ≥ totalPlayerCount − 1`, the host ends the game with
`winner = SPIES`. -/
theorem handleVoteRevealFinished_roundLimit (room : RoomState)
    (hw : checkWinConditions room.players = none)
    (hrl : room.roundLimit = true)
    (hr : room.players.length - 1 ≤ room.round) :
    (handleVoteRevealFinished room).gamePhase = GamePhase.GAME_OVER
      ∧ (handleVoteRevealFinished room).winner = some Winner.SPIES := by
  unfold handleVoteRevealFinished
  simp [hw, hrl, hr]

/-- Concrete room for the round-limit witness: four players, one spy,
nobody eliminated (so no winner yet), `round = 3 = 4 − 1`. -/
def roomC5 : RoomState :=
  { roomId := "ROOM", hostId := "A", gamePhase := GamePhase.VOTE_REVEAL,
    round := 3,
    players := [{ basicPlayer "A" 0 with isSpy := true },
      basicPlayer "B" 1, basicPlayer "C" 2, basicPlayer "D" 3],
    answers := [], votes := [], usedQuestionIds := [], usedQuestionTexts := [],
    currentQuestion := none, lastEliminated := none, winner := none,
    noTimer := false, roundLimit := true,
    answerTimerEnd := none, voteTimerEnd := none }

/-- Witness for C5: `roomC5` (4 players, `roundLimit` on, round 3, no
winner) is forced to `GAME_OVER` with `SPIES` as winner. -/
theorem handleVoteRevealFinished_roundLimit_witness :
    (handleVoteRevealFinished roomC5).gamePhase = GamePhase.GAME_OVER
      ∧ (handleVoteRevealFinished roomC5).winner = some Winner.SPIES :=
  handleVoteRevealFinished_roundLimit roomC5 (by decide) (by decide) (by decide)

/-! ### Guarded append transactions (`OnlineGame`, `handleAction`) -/

/-- `handleAction`: the guarded transaction body.  When the condition
holds the transaction aborts (`return` with no value), leaving the data
unchanged; otherwise the value is appended (Firebase represents an empty
list as `null`, for which the body returns `[value] = [] ++ [value]`). -/
def handleAction {α : Type} (currentData : List α) (value : α)
    (condition : List α → Bool) : List α :=
  if condition currentData then currentData else currentData ++ [value]

/-- `handleAnswerSubmit`: append the answer unless this player already
answered. -/
def submitAnswer (localPlayerId : String) (answer : String)
    (answers : List Answer) : List Answer :=
  handleAction answers { playerId := localPlayerId, answer := answer }
    (fun current => current.any (fun a => a.playerId == localPlayerId))

/-- `handleVoteSubmit`: append the vote unless this player already
voted. -/
def submitVote (localPlayerId : String) (votedForId : Option String)
    (votes : List Vote) : List Vote :=
  handleAction votes { voterId := localPlayerId, votedForId := votedForId }
    (fun current => current.any (fun v => v.voterId == localPlayerId))

theorem handleAction_noop {α : Type} (l : List α) (v : α) (c : List α → Bool)
    (h : c l = true) : handleAction l v c = l := by
  unfold handleAction
  rw [if_pos h]

theorem submitAnswer_any (pid : String) (ans : String) (answers : List Answer) :
    ((submitAnswer pid ans answers).any (fun a => a.playerId == pid)) = true := by
  unfold submitAnswer handleAction
  split
  · assumption
  · rw [List.any_append]
    simp

theorem submitVote_any (pid : String) (target : Option String) (votes : List Vote) :
    ((submitVote pid target votes).any (fun v => v.voterId == pid)) = true := by
  unfold submitVote handleAction
  split
  · assumption
  · rw [List.any_append]
    simp

theorem submitVote_countP (pid : String) (target : Option String)
    (votes : List Vote) (q : String)
    (h : votes.countP (fun v => v.voterId == q) ≤ 1) :
    (submitVote pid target votes).countP (fun v => v.voterId == q) ≤ 1 := by
  unfold submitVote handleAction
  split
  · exact h
  · rename_i hc
    rw [Bool.not_eq_true, List.any_eq_false] at hc
    rw [List.countP_append]
    by_cases hq : pid = q
    · have h0 : votes.countP (fun v => v.voterId == q) = 0 := by
        rw [List.countP_eq_zero]
        intro v hv
        rw [← hq]
        exact hc v hv
      rw [h0]
      simp [hq]
    · have h1 : (([{ voterId := pid, votedForId := target }] : List Vote)).countP
          (fun v => v.voterId == q) = 0 := by
        simp [hq]
      rw [h1]
      omega

theorem submitAnswer_countP (pid : String) (ans : String)
    (answers : List Answer) (q : String)
    (h : answers.countP (fun a => a.playerId == q) ≤ 1) :
    (submitAnswer pid ans answers).countP (fun a => a.playerId == q) ≤ 1 := by
  unfold submitAnswer handleAction
  split
  · exact h
  · rename_i hc
    rw [Bool.not_eq_true, List.any_eq_false] at hc
    rw [List.countP_append]
    by_cases hq : pid = q
    · have h0 : answers.countP (fun a => a.playerId == q) = 0 := by
        rw [List.countP_eq_zero]
        intro a ha
        rw [← hq]
        exact hc a ha
      rw [h0]
      simp [hq]
    · have h1 : (([{ playerId := pid, answer := ans }] : List Answer)).countP
          (fun a => a.playerId == q) = 0 := by
        simp [hq]
      rw [h1]
      omega

/-- C8: a second submission by the same player aborts the guarded
transaction: when the list already holds an entry for the player the
submit is the identity; submitting twice equals submitting once (so the
tally outcome is unchanged); and the per-player at-most-one invariant is
preserved by every submit. -/
theorem submit_guard_correct (pid : String) (ans : String)
    (target : Option String) (answers : List Answer) (votes : List Vote)
    (players : List Player) :
    ((answers.any (fun a => a.playerId == pid)) = true →
        submitAnswer pid ans answers = answers)
    ∧ ((votes.any (fun v => v.voterId == pid)) = true →
        submitVote pid target votes = votes)
    ∧ submitAnswer pid ans (submitAnswer pid ans answers)
        = submitAnswer pid ans answers
    ∧ submitVote pid target (submitVote pid target votes)
        = submitVote pid target votes
    ∧ handleVoteTally players (submitVote pid target (submitVote pid target votes))
        = handleVoteTally players (submitVote pid target votes)
    ∧ (∀ q : String, votes.countP (fun v => v.voterId == q) ≤ 1 →
        (submitVote pid target votes).countP (fun v => v.voterId == q) ≤ 1)
    ∧ (∀ q : String, answers.countP (fun a => a.playerId == q) ≤ 1 →
        (submitAnswer pid ans answers).countP (fun a => a.playerId == q) ≤ 1) := by
  have hva : submitVote pid target (submitVote pid target votes)
      = submitVote pid target votes :=
    handleAction_noop _ _ _ (submitVote_any pid target votes)
  refine ⟨fun h => handleAction_noop _ _ _ h,
    fun h => handleAction_noop _ _ _ h,
    handleAction_noop _ _ _ (submitAnswer_any pid ans answers),
    hva, by rw [hva],
    fun q hq => submitVote_countP pid target votes q hq,
    fun q hq => submitAnswer_countP pid ans answers q hq⟩

/-- Witness for C8: a duplicate answer and a duplicate vote by `"A"`
are no-ops, and a fresh vote keeps the at-most-one invariant. -/
theorem submit_guard_correct_witness :
    submitAnswer "A" "no" [{ playerId := "A", answer := "yes" }]
        = [{ playerId := "A", answer := "yes" }]
    ∧ submitVote "A" none [{ voterId := "A", votedForId := some "B" }]
        = [{ voterId := "A", votedForId := some "B" }]
    ∧ (submitVote "A" (some "B") []).countP (fun v => v.voterId == "A") ≤ 1 := by
  have T := submit_guard_correct "A" "no" (some "B")
    [{ playerId := "A", answer := "yes" }] [{ voterId := "A", votedForId := some "B" }] []
  have T2 := submit_guard_correct "A" "no" none
    [{ playerId := "A", answer := "yes" }] [{ voterId := "A", votedForId := some "B" }] []
  have T3 := submit_guard_correct "A" "no" (some "B")
    [{ playerId := "A", answer := "yes" }] [] []
  exact ⟨T.1 (by decide), T2.2.1 (by decide), T3.2.2.2.2.2.1 "A" (by decide)⟩

/-! ### Next round (`OnlineGame`, `startNewRound` and
`handleContinueToNextRound`) -/

/-- `startNewRound`, parameterised by the result of the external
question provider (`generateNewQuestion`): on a question, recompute its
answer options when it is a `PLAYERS` question, reset the round-scoped
fields and move to `ANSWERING`; on provider exhaustion move to
`GAME_OVER` with `winner = PLAYERS`. -/
def startNewRound (room : RoomState) (newQuestion : Option Question)
    (usedIds : List Nat) (usedTexts : List String) (now : Nat) : RoomState :=
  match newQuestion with
  | some q =>
    let questionWithDynamicAnswers :=
      if q.qtype = QuestionType.PLAYERS then
        { q with answers :=
          (room.players.filter (fun p => !p.isEliminated)).map (fun p => p.name) }
      else q
    { room with
      currentQuestion := some questionWithDynamicAnswers,
      usedQuestionIds := usedIds, usedQuestionTexts := usedTexts,
      answers := [], votes := [], lastEliminated := none,
      gamePhase := GamePhase.ANSWERING,
      answerTimerEnd := if room.noTimer then none else some (now + 30000) }
  | none =>
    { room with winner := some Winner.PLAYERS, gamePhase := GamePhase.GAME_OVER }

/-- `handleContinueToNextRound`: increment the round and start the next
round. -/
def handleContinueToNextRound (room : RoomState) (newQuestion : Option Question)
    (usedIds : List Nat) (usedTexts : List String) (now : Nat) : RoomState :=
  startNewRound { room with round := room.round + 1 } newQuestion usedIds usedTexts now

def questionC9 : Question :=
  { id := 1, text := "Q", qtype := QuestionType.YES_NO,
    answers := ["yes", "no"], familyFriendly := true }

def roomC9 : RoomState :=
  { roomId := "ROOM", hostId := "A", gamePhase := GamePhase.SYNCING_NEXT_ROUND,
    round := 1,
    players := [{ basicPlayer "A" 0 with isSpy := true },
      basicPlayer "B" 1, basicPlayer "C" 2, basicPlayer "D" 3],
    answers := [], votes := [], usedQuestionIds := [], usedQuestionTexts := [],
    currentQuestion := none, lastEliminated := none, winner := none,
    noTimer := false, roundLimit := false,
    answerTimerEnd := none, voteTimerEnd := none }

/-- C9 counterexample: from `SYNCING_NEXT_ROUND`, when the provider
returns a question the host moves the room to `ANSWERING` — not to
`ROLE_REVEAL` (and not to `GAME_OVER`), contradicting the claimed
`SYNCING_NEXT_ROUND → ROLE_REVEAL | GAME_OVER` transition. -/
theorem handleContinueToNextRound_counterexample :
    roomC9.gamePhase = GamePhase.SYNCING_NEXT_ROUND
      ∧ (handleContinueToNextRound roomC9 (some questionC9) [1] ["Q"] 0).gamePhase
          = GamePhase.ANSWERING
      ∧ ¬((handleContinueToNextRound roomC9 (some questionC9) [1] ["Q"] 0).gamePhase
            = GamePhase.ROLE_REVEAL
          ∨ (handleContinueToNextRound roomC9 (some questionC9) [1] ["Q"] 0).gamePhase
            = GamePhase.GAME_OVER) := by
  decide

/-- C9 amended: every transition the host performs out of
`SYNCING_NEXT_ROUND` moves the room either to `ANSWERING` (next round,
when the question provider returned a question) or to `GAME_OVER` with
`winner = PLAYERS` (provider exhaustion); never to any other phase. -/
theorem handleContinueToNextRound_phases (room : RoomState)
    (hphase : room.gamePhase = GamePhase.SYNCING_NEXT_ROUND)
    (newQuestion : Option Question) (usedIds : List Nat)
    (usedTexts : List String) (now : Nat) :
    ((handleContinueToNextRound room newQuestion usedIds usedTexts now).gamePhase
          = GamePhase.ANSWERING
      ∨ (handleContinueToNextRound room newQuestion usedIds usedTexts now).gamePhase
          = GamePhase.GAME_OVER)
    ∧ (newQuestion.isSome = true →
        (handleContinueToNextRound room newQuestion usedIds usedTexts now).gamePhase
          = GamePhase.ANSWERING)
    ∧ (newQuestion = none →
        (handleContinueToNextRound room newQuestion usedIds usedTexts now).gamePhase
            = GamePhase.GAME_OVER
          ∧ (handleContinueToNextRound room newQuestion usedIds usedTexts now).winner
            = some Winner.PLAYERS) := by
  cases newQuestion with
  | none => simp [handleContinueToNextRound, startNewRound]
  | some q => simp [handleContinueToNextRound, startNewRound]

/-- Witness for C9 (amended): on `roomC9` with a provided question the
transition lands in `ANSWERING`, and with an exhausted provider it lands
in `GAME_OVER` with `winner = PLAYERS`. -/
theorem handleContinueToNextRound_phases_witness :
    ((handleContinueToNextRound roomC9 (some questionC9) [1] ["Q"] 0).gamePhase
          = GamePhase.ANSWERING
      ∨ (handleContinueToNextRound roomC9 (some questionC9) [1] ["Q"] 0).gamePhase
          = GamePhase.GAME_OVER)
    ∧ ((handleContinueToNextRound roomC9 none [] [] 0).gamePhase
          = GamePhase.GAME_OVER
        ∧ (handleContinueToNextRound roomC9 none [] [] 0).winner
          = some Winner.PLAYERS) :=
  ⟨(handleContinueToNextRound_phases roomC9 (by decide) (some questionC9) [1] ["Q"] 0).1,
   (handleContinueToNextRound_phases roomC9 (by decide) none [] [] 0).2.2 rfl⟩

/-! ### Join / rejoin (`OnlineGame`, `handleJoinRoom`) -/

/-- The typed failures of `handleJoinRoom` (each surfaced as a distinct
error message in the source). -/
inductive JoinError where
  | RoomNotFound
  | NameTaken
  | GameAlreadyStarted
  | RoomFull
deriving DecidableEq, Repr

/-- Either the id of the joined player or the failure. -/
inductive JoinResult where
  | ok (playerId : String)
  | err (e : JoinError)
deriving DecidableEq, Repr

/-- Outcome of a join attempt: the result and the store contents for
the room afterwards (`none` when the room is absent or was deleted). -/
structure JoinOutcome where
  result : JoinResult
  room : Option RoomState
deriving DecidableEq, Repr

/-- The fresh `Player` record written on a new join (the source leaves
`roleAcknowledged`/`readyForNextRound` unset, i.e. falsy). -/
def newJoinPlayer (playerId playerName : String) (avatar : Option String)
    (joinTimestamp : Nat) (authUid : String) : Player :=
  { id := playerId, name := playerName, avatar := avatar, isSpy := false,
    isEliminated := false, isHost := false,
    connectionStatus := ConnectionStatus.connected,
    roleAcknowledged := false, readyForNextRound := false,
    joinTimestamp := joinTimestamp, firebaseAuthUid := authUid }

/-- `handleJoinRoom` from `OnlineGame` as a function of the store
snapshot: room absent → `RoomNotFound`; room with zero players →
delete the room and `RoomNotFound`; a disconnected player with the
joining client's `firebaseAuthUid` → rejoin (refresh name/avatar/uid,
set connected, reuse the player id); otherwise a new join guarded by
`NameTaken`, `GameAlreadyStarted` (`gamePhase != 'SETUP'`) and
`RoomFull` (`players.length >= 12`) in that order, appending a fresh
player record on success. -/
def handleJoinRoom (authUid localPlayerId playerName : String)
    (avatar : Option String) (joinTimestamp : Nat)
    (store : Option RoomState) : JoinOutcome :=
  match store with
  | none => { result := JoinResult.err JoinError.RoomNotFound, room := none }
  | some roomState =>
    if roomState.players.length = 0 then
      { result := JoinResult.err JoinError.RoomNotFound, room := none }
    else
      match roomState.players.find? (fun p =>
          p.firebaseAuthUid == authUid
            && (p.connectionStatus == ConnectionStatus.disconnected)) with
      | some disconnectedPlayer =>
        { result := JoinResult.ok disconnectedPlayer.id,
          room := some { roomState with
            players := roomState.players.map (fun p =>
              if p.id == disconnectedPlayer.id then
                { p with
                  connectionStatus := ConnectionStatus.connected,
                  name := playerName, avatar := avatar,
                  firebaseAuthUid := authUid }
              else p) } }
      | none =>
        if roomState.players.any (fun p => p.name == playerName) then
          { result := JoinResult.err JoinError.NameTaken, room := some roomState }
        else if roomState.gamePhase != GamePhase.SETUP then
          { result := JoinResult.err JoinError.GameAlreadyStarted,
            room := some roomState }
        else if 12 ≤ roomState.players.length then
          { result := JoinResult.err JoinError.RoomFull, room := some roomState }
        else
          { result := JoinResult.ok localPlayerId,
            room := some { roomState with
              players := roomState.players
                ++ [newJoinPlayer localPlayerId playerName avatar joinTimestamp authUid] } }

/-- Reduction of `handleJoinRoom` on the rejoin path. -/
theorem handleJoinRoom_rejoin_eq (authUid localPlayerId playerName : String)
    (avatar : Option String) (ts : Nat) (roomState : RoomState) (dp : Player)
    (hne : roomState.players ≠ [])
    (hfind : roomState.players.find? (fun p =>
        p.firebaseAuthUid == authUid
          && (p.connectionStatus == ConnectionStatus.disconnected)) = some dp) :
    handleJoinRoom authUid localPlayerId playerName avatar ts (some roomState)
      = { result := JoinResult.ok dp.id,
          room := some { roomState with
            players := roomState.players.map (fun p =>
              if p.id == dp.id then
                { p with
                  connectionStatus := ConnectionStatus.connected,
                  name := playerName, avatar := avatar,
                  firebaseAuthUid := authUid }
              else p) } } := by
  have h0 : ¬(roomState.players.length = 0) := fun h =>
    hne (List.length_eq_zero.mp h)
  simp only [handleJoinRoom]
  rw [if_neg h0, hfind]

/-- C6: when a player record carries the joining client's durable
`firebaseAuthUid` and is disconnected, `joinRoom` is a rejoin: the
result reuses that record's id, the room keeps exactly the same player
ids in the same order (no record is created), the matched record is
refreshed (name, avatar, `connectionStatus = connected`), and every
other record is untouched. -/
theorem handleJoinRoom_rejoin (authUid localPlayerId playerName : String)
    (avatar : Option String) (ts : Nat) (roomState : RoomState) (dp : Player)
    (hne : roomState.players ≠ [])
    (hfind : roomState.players.find? (fun p =>
        p.firebaseAuthUid == authUid
          && (p.connectionStatus == ConnectionStatus.disconnected)) = some dp) :
    ∃ r', (handleJoinRoom authUid localPlayerId playerName avatar ts
            (some roomState)).room = some r'
      ∧ (handleJoinRoom authUid localPlayerId playerName avatar ts
            (some roomState)).result = JoinResult.ok dp.id
      ∧ r'.players.map (fun p => p.id) = roomState.players.map (fun p => p.id)
      ∧ (∃ p' ∈ r'.players, p'.id = dp.id ∧ p'.name = playerName
          ∧ p'.avatar = avatar
          ∧ p'.connectionStatus = ConnectionStatus.connected)
      ∧ (∀ p ∈ roomState.players, p.id ≠ dp.id → p ∈ r'.players) := by
  rw [handleJoinRoom_rejoin_eq authUid localPlayerId playerName avatar ts
    roomState dp hne hfind]
  have hdp : dp ∈ roomState.players := List.mem_of_find?_eq_some hfind
  refine ⟨_, rfl, rfl, ?_, ?_, ?_⟩
  · rw [List.map_map]
    apply List.map_congr_left
    intro p _
    by_cases hp : p.id = dp.id <;> simp [hp]
  · refine ⟨_, List.mem_map_of_mem _ hdp, ?_⟩
    simp
  · intro p hp hpid
    refine List.mem_map.mpr ⟨p, hp, ?_⟩
    simp [hpid]

/-- C10: the rejoin check runs before every new-join guard: whenever a
disconnected record matches the joining client's `firebaseAuthUid`, the
join succeeds with that record's id and no error — whatever the game
phase, the player count or the display names. -/
theorem handleJoinRoom_rejoin_bypasses_guards (authUid localPlayerId playerName : String)
    (avatar : Option String) (ts : Nat) (roomState : RoomState) (dp : Player)
    (hne : roomState.players ≠ [])
    (hfind : roomState.players.find? (fun p =>
        p.firebaseAuthUid == authUid
          && (p.connectionStatus == ConnectionStatus.disconnected)) = some dp) :
    (handleJoinRoom authUid localPlayerId playerName avatar ts
        (some roomState)).result = JoinResult.ok dp.id
      ∧ ∀ e : JoinError,
          (handleJoinRoom authUid localPlayerId playerName avatar ts
            (some roomState)).result ≠ JoinResult.err e := by
  rw [handleJoinRoom_rejoin_eq authUid localPlayerId playerName avatar ts
    roomState dp hne hfind]
  exact ⟨rfl, fun e h => by cases h⟩

/-- C7: the failure modes of a non-rejoin join, with the source's guard
order: absent room → `RoomNotFound`; room with zero players → the room
is deleted and `RoomNotFound`; then (no rejoin match) a name collision →
`NameTaken`; otherwise a started game → `GameAlreadyStarted`; otherwise
a full room (≥ 12) → `RoomFull`.  Each failure returns the store
unchanged (or deleted), so no new player record is ever written on
failure. -/
theorem handleJoinRoom_errors (authUid localPlayerId playerName : String)
    (avatar : Option String) (ts : Nat) :
    (handleJoinRoom authUid localPlayerId playerName avatar ts none
        = { result := JoinResult.err JoinError.RoomNotFound, room := none })
    ∧ (∀ roomState : RoomState, roomState.players = [] →
        handleJoinRoom authUid localPlayerId playerName avatar ts (some roomState)
          = { result := JoinResult.err JoinError.RoomNotFound, room := none })
    ∧ (∀ roomState : RoomState, roomState.players ≠ [] →
        roomState.players.find? (fun p =>
            p.firebaseAuthUid == authUid
              && (p.connectionStatus == ConnectionStatus.disconnected)) = none →
        ((roomState.players.any (fun p => p.name == playerName) = true →
            handleJoinRoom authUid localPlayerId playerName avatar ts (some roomState)
              = { result := JoinResult.err JoinError.NameTaken,
                  room := some roomState })
          ∧ (roomState.players.any (fun p => p.name == playerName) = false →
              roomState.gamePhase ≠ GamePhase.SETUP →
              handleJoinRoom authUid localPlayerId playerName avatar ts (some roomState)
                = { result := JoinResult.err JoinError.GameAlreadyStarted,
                    room := some roomState })
          ∧ (roomState.players.any (fun p => p.name == playerName) = false →
              roomState.gamePhase = GamePhase.SETUP →
              12 ≤ roomState.players.length →
              handleJoinRoom authUid localPlayerId playerName avatar ts (some roomState)
                = { result := JoinResult.err JoinError.RoomFull,
                    room := some roomState }))) := by
  refine ⟨rfl, ?_, ?_⟩
  · intro roomState hempty
    simp only [handleJoinRoom]
    rw [if_pos (by rw [hempty]; rfl)]
  · intro roomState hne hfind
    have h0 : ¬(roomState.players.length = 0) := fun h =>
      hne (List.length_eq_zero.mp h)
    refine ⟨?_, ?_, ?_⟩
    · intro hname
      simp only [handleJoinRoom]
      rw [if_neg h0, hfind, if_pos hname]
    · intro hname hphase
      simp only [handleJoinRoom]
      rw [if_neg h0, hfind, if_neg (by rw [hname]; exact Bool.false_ne_true),
        if_pos (by simpa using hphase)]
    · intro hname hphase hfull
      simp only [handleJoinRoom]
      rw [if_neg h0, hfind, if_neg (by rw [hname]; exact Bool.false_ne_true),
        if_neg (by simp [hphase]), if_pos hfull]

/-- The disconnected record matched by the C6 rejoin witness. -/
def dpC6 : Player :=
  { basicPlayer "P1" 0 with
    connectionStatus := ConnectionStatus.disconnected,
    firebaseAuthUid := "uid-rejoin" }

def roomC6 : RoomState :=
  { roomId := "ROOM", hostId := "P2", gamePhase := GamePhase.ANSWERING,
    round := 2,
    players := [dpC6, basicPlayer "P2" 1],
    answers := [], votes := [], usedQuestionIds := [], usedQuestionTexts := [],
    currentQuestion := none, lastEliminated := none, winner := none,
    noTimer := false, roundLimit := true,
    answerTimerEnd := none, voteTimerEnd := none }

/-- Witness for C6: rejoining `roomC6` with the stored durable uid
reuses `"P1"`, refreshes its record and creates no new player. -/
theorem handleJoinRoom_rejoin_witness :
    ∃ r', (handleJoinRoom "uid-rejoin" "inst" "NewName" none 7
            (some roomC6)).room = some r'
      ∧ (handleJoinRoom "uid-rejoin" "inst" "NewName" none 7
            (some roomC6)).result = JoinResult.ok dpC6.id
      ∧ r'.players.map (fun p => p.id) = roomC6.players.map (fun p => p.id)
      ∧ (∃ p' ∈ r'.players, p'.id = dpC6.id ∧ p'.name = "NewName"
          ∧ p'.avatar = none
          ∧ p'.connectionStatus = ConnectionStatus.connected)
      ∧ (∀ p ∈ roomC6.players, p.id ≠ dpC6.id → p ∈ r'.players) :=
  handleJoinRoom_rejoin "uid-rejoin" "inst" "NewName" none 7 roomC6 dpC6
    (by decide) (by decide)

/-- The disconnected record matched by the C10 witness. -/
def dpC10 : Player :=
  { basicPlayer "Z0" 0 with
    connectionStatus := ConnectionStatus.disconnected,
    firebaseAuthUid := "uid-z" }

/-- A started, full room with a name collision for the C10 witness. -/
def roomC10 : RoomState :=
  { roomId := "ROOM", hostId := "Z1", gamePhase := GamePhase.ANSWERING,
    round := 2,
    players := [dpC10, basicPlayer "Z1" 1, basicPlayer "Z2" 2,
      basicPlayer "Z3" 3, basicPlayer "Z4" 4, basicPlayer "Z5" 5,
      basicPlayer "Z6" 6, basicPlayer "Z7" 7, basicPlayer "Z8" 8,
      basicPlayer "Z9" 9, basicPlayer "Z10" 10, basicPlayer "Z11" 11],
    answers := [], votes := [], usedQuestionIds := [], usedQuestionTexts := [],
    currentQuestion := none, lastEliminated := none, winner := none,
    noTimer := false, roundLimit := true,
    answerTimerEnd := none, voteTimerEnd := none }

/-- Witness for C10: `roomC10` is mid-game, holds 12 players and the
joining name `"Z1"` collides — yet the rejoin succeeds with `"Z0"` and
no error is possible. -/
theorem handleJoinRoom_rejoin_bypasses_guards_witness :
    (roomC10.gamePhase ≠ GamePhase.SETUP
      ∧ 12 ≤ roomC10.players.length
      ∧ roomC10.players.any (fun p => p.name == "Z1") = true)
    ∧ ((handleJoinRoom "uid-z" "inst" "Z1" none 99 (some roomC10)).result
          = JoinResult.ok dpC10.id
        ∧ ∀ e : JoinError,
            (handleJoinRoom "uid-z" "inst" "Z1" none 99
              (some roomC10)).result ≠ JoinResult.err e) :=
  ⟨by decide,
    handleJoinRoom_rejoin_bypasses_guards "uid-z" "inst" "Z1" none 99
      roomC10 dpC10 (by decide) (by decide)⟩

def roomC7empty : RoomState :=
  { roomId := "ROOM", hostId := "A", gamePhase := GamePhase.SETUP, round := 1,
    players := [],
    answers := [], votes := [], usedQuestionIds := [], usedQuestionTexts := [],
    currentQuestion := none, lastEliminated := none, winner := none,
    noTimer := false, roundLimit := true,
    answerTimerEnd := none, voteTimerEnd := none }

def roomC7 : RoomState :=
  { roomId := "ROOM", hostId := "A", gamePhase := GamePhase.ANSWERING,
    round := 2,
    players := [basicPlayer "A" 0, basicPlayer "B" 1],
    answers := [], votes := [], usedQuestionIds := [], usedQuestionTexts := [],
    currentQuestion := none, lastEliminated := none, winner := none,
    noTimer := false, roundLimit := true,
    answerTimerEnd := none, voteTimerEnd := none }

def roomC7full : RoomState :=
  { roomId := "ROOM", hostId := "F0", gamePhase := GamePhase.SETUP, round := 1,
    players := [basicPlayer "F0" 0, basicPlayer "F1" 1, basicPlayer "F2" 2,
      basicPlayer "F3" 3, basicPlayer "F4" 4, basicPlayer "F5" 5,
      basicPlayer "F6" 6, basicPlayer "F7" 7, basicPlayer "F8" 8,
      basicPlayer "F9" 9, basicPlayer "F10" 10, basicPlayer "F11" 11],
    answers := [], votes := [], usedQuestionIds := [], usedQuestionTexts := [],
    currentQuestion := none, lastEliminated := none, winner := none,
    noTimer := false, roundLimit := true,
    answerTimerEnd := none, voteTimerEnd := none }

/-- Witness for C7: each failure mode exercised on a concrete store —
missing room, empty room (deleted), name collision, started game, and
full room — each leaving the room without a new player record. -/
theorem handleJoinRoom_errors_witness :
    (handleJoinRoom "u" "i" "N" none 0 none
        = { result := JoinResult.err JoinError.RoomNotFound, room := none })
    ∧ (handleJoinRoom "u" "i" "N" none 0 (some roomC7empty)
        = { result := JoinResult.err JoinError.RoomNotFound, room := none })
    ∧ (handleJoinRoom "u" "i" "A" none 0 (some roomC7)
        = { result := JoinResult.err JoinError.NameTaken, room := some roomC7 })
    ∧ (handleJoinRoom "u" "i" "N" none 0 (some roomC7)
        = { result := JoinResult.err JoinError.GameAlreadyStarted,
            room := some roomC7 })
    ∧ (handleJoinRoom "u" "i" "N" none 0 (some roomC7full)
        = { result := JoinResult.err JoinError.RoomFull,
            room := some roomC7full }) :=
  ⟨(handleJoinRoom_errors "u" "i" "N" none 0).1,
    (handleJoinRoom_errors "u" "i" "N" none 0).2.1 roomC7empty rfl,
    ((handleJoinRoom_errors "u" "i" "A" none 0).2.2 roomC7
      (by decide) (by decide)).1 (by decide),
    ((handleJoinRoom_errors "u" "i" "N" none 0).2.2 roomC7
      (by decide) (by decide)).2.1 (by decide) (by decide),
    ((handleJoinRoom_errors "u" "i" "N" none 0).2.2 roomC7full
      (by decide) (by decide)).2.2 (by decide) (by decide) (by decide)⟩

end SpyGame

